import Mathlib

/-! Storport helper functions (`drivers/storage/port/storport/misc.c`)

A shallow embedding of the helper functions of the ReactOS Storport driver:
`GetResourceListSize`, `CopyResourceList`, `GetBusInterface`,
`ForwardIrpAndWait` (with its completion routine) and `QueryBusInterface`.

Memory is a byte-addressed map, pointers are addresses (`0` is `NULL`),
`ULONG` arithmetic is arithmetic modulo `2^32`, and the kernel services the
functions call are parameters of the embedded functions or are modelled
next to them. The `DPRINT1` trace output and the `ASSERT(LowerDevice)` of
the forwarding functions have no effect on the values and states described
here and are left out.
-/

namespace Storport

/-! ## Memory -/

/-- Byte-addressed memory: the byte stored at every address. -/
abbrev Mem := Nat → Nat

/-- A `UCHAR` read. -/
def readUCHAR (m : Mem) (a : Nat) : Nat := m a % 256

/-- A little-endian `ULONG` read (four bytes). -/
def readULONG (m : Mem) (a : Nat) : Nat :=
  readUCHAR m a + 256 * readUCHAR m (a + 1) + 65536 * readUCHAR m (a + 2)
    + 16777216 * readUCHAR m (a + 3)

/-- The number of values of a `ULONG`. -/
def ULONG_MODULUS : Nat := 4294967296

/-- Truncation of a value to a `ULONG`. -/
def toULONG (n : Nat) : Nat := n % ULONG_MODULUS

/-- Memory holding the bytes `bytes` from address `base` on, and zero elsewhere. -/
def memOfBytes (base : Nat) (bytes : List Nat) : Mem :=
  fun a => if base ≤ a then bytes.getD (a - base) 0 else 0

/-! ## Layout of the resource list types

The declarations of `CM_RESOURCE_LIST`, `CM_FULL_RESOURCE_DESCRIPTOR` and
`CM_PARTIAL_RESOURCE_DESCRIPTOR` are in the SDK headers, not in `misc.c`.
The sizes and field offsets `misc.c` uses are the fields of `Layout`. -/

/-- The sizes and field offsets of the resource list types that
`GetResourceListSize` uses. -/
structure Layout where
  /-- The value of `sizeof(CM_RESOURCE_LIST)`. -/
  sizeofResourceList : Nat
  /-- The value of `sizeof(CM_FULL_RESOURCE_DESCRIPTOR)`. -/
  sizeofFullDescriptor : Nat
  /-- The value of `sizeof(CM_PARTIAL_RESOURCE_DESCRIPTOR)`. -/
  sizeofPartialDescriptor : Nat
  /-- The offset of `Count` in `CM_RESOURCE_LIST`. -/
  offCount : Nat
  /-- The offset of `List` in `CM_RESOURCE_LIST`. -/
  offList : Nat
  /-- The offset of `PartialResourceList.Count` in `CM_FULL_RESOURCE_DESCRIPTOR`. -/
  offPartialCount : Nat
  /-- The offset of `PartialResourceList.PartialDescriptors` in
  `CM_FULL_RESOURCE_DESCRIPTOR`. -/
  offPartialDescriptors : Nat

/-- What the C declarations guarantee about a layout: each `Count` field is a
`ULONG` that lies before the array it counts, `CM_FULL_RESOURCE_DESCRIPTOR`
contains one element of `PartialDescriptors` (the reason for the `- 1` in
`GetResourceListSize`), and `CM_RESOURCE_LIST` contains one element of
`List` (the code reads `ResourceList->List[0]`). -/
structure Layout.WellFormed (L : Layout) : Prop where
  count_before_list : L.offCount + 4 ≤ L.offList
  count_before_descriptors : L.offPartialCount + 4 ≤ L.offPartialDescriptors
  full_contains_one : L.offPartialDescriptors + L.sizeofPartialDescriptor ≤ L.sizeofFullDescriptor
  list_contains_one : L.offList + L.sizeofFullDescriptor ≤ L.sizeofResourceList

/-- Modelled from the spec: the declarations of the resource list types are
not in `misc.c`. The spec describes a header holding the count of blocks,
followed by the blocks, each a fixed header with a sub-count followed by
fixed-size partial descriptors, one of which is embedded in the full-block
layout. These are the numbers of the 32-bit build: `ULONG Count` at offset 0
and `List[1]` at offset 4; a full descriptor of `InterfaceType`, `BusNumber`,
`Version`, `Revision`, `Count` (offset 12) and `PartialDescriptors[1]`
(offset 16); a partial descriptor of 16 bytes. -/
def ntLayout : Layout :=
  ⟨36, 32, 16, 0, 4, 12, 16⟩

/-! ## GetResourceListSize -/

/-- One iteration of the loop body of `GetResourceListSize`, on the pair
`(Descriptor, Size)`: reads `Descriptor->PartialResourceList.Count`, adds
`sizeof(CM_FULL_RESOURCE_DESCRIPTOR) + (Count - 1) * sizeof(CM_PARTIAL_RESOURCE_DESCRIPTOR)`
to `Size`, and advances `Descriptor` to `PartialDescriptors + Count`.
`Count - 1` is a `ULONG` subtraction (it wraps at `2^32`) and the sum is
truncated to the `ULONG` variable `Size`; truncating the intermediate
`size_t` values at 32 or at 64 bits gives the same `ULONG`. -/
def sizeStep (L : Layout) (m : Mem) (st : Nat × Nat) : Nat × Nat :=
  let Descriptor := st.1
  let Size := st.2
  let Count := readULONG m (Descriptor + L.offPartialCount)
  (Descriptor + L.offPartialDescriptors + Count * L.sizeofPartialDescriptor,
   toULONG (Size + (L.sizeofFullDescriptor
      + toULONG (Count + ULONG_MODULUS - 1) * L.sizeofPartialDescriptor)))

/-- The loop `for (i = 0; i < ResourceList->Count; i++)` of
`GetResourceListSize` with `n` iterations left, on the pair
`(Descriptor, Size)`. The `INT` counter `i` is compared with the `ULONG`
count as an unsigned value: the body runs `Count` times. -/
def sizeLoop (L : Layout) (m : Mem) : Nat → Nat × Nat → Nat × Nat
  | 0, st => st
  | n + 1, st => sizeLoop L m n (sizeStep L m st)

/-- The pair `(Descriptor, Size)` at the end of `GetResourceListSize`: the
cursor and the running total after `ResourceList->Count` iterations, from
`Descriptor = &ResourceList->List[0]` and `Size = sizeof(CM_RESOURCE_LIST)`. -/
def GetResourceListSizeState (L : Layout) (m : Mem) (ResourceList : Nat) : Nat × Nat :=
  sizeLoop L m (readULONG m (ResourceList + L.offCount))
    (ResourceList + L.offList, toULONG L.sizeofResourceList)

/-- The function `GetResourceListSize(ResourceList)`. -/
def GetResourceListSize (L : Layout) (m : Mem) (ResourceList : Nat) : Nat :=
  let Size := toULONG L.sizeofResourceList
  if readULONG m (ResourceList + L.offCount) = 0 then Size
  else (GetResourceListSizeState L m ResourceList).2

/-- A resource list of the 32-bit layout as bytes: `Count` and then, for
every sub-count `k` of `ks`, a block of 16 header bytes (the sub-count at
offset 12) and `k` partial descriptors of 16 bytes, filled with `fill`. -/
def encodeBlocks (fill : Nat) : List Nat → List Nat
  | [] => []
  | k :: ks =>
    List.replicate 12 fill ++ [k % 256, k / 256 % 256, k / 65536 % 256, k / 16777216 % 256]
      ++ List.replicate (k * 16) fill ++ encodeBlocks fill ks

/-- The bytes of a whole list: the count of blocks, then the blocks. -/
def encodeList (fill : Nat) (ks : List Nat) : List Nat :=
  [ks.length % 256, ks.length / 256 % 256, ks.length / 65536 % 256, ks.length / 16777216 % 256]
    ++ encodeBlocks fill ks

/-- The sub-counts a cursor reads in `n` blocks from address `c`: it reads
the `ULONG` sub-count `k` of the block at `c` and moves on to the address
after `k` partial descriptors of that block. -/
def readCounts (L : Layout) (m : Mem) : Nat → Nat → List Nat
  | 0, _ => []
  | n + 1, c =>
    readULONG m (c + L.offPartialCount) ::
      readCounts L m n
        (c + L.offPartialDescriptors
          + readULONG m (c + L.offPartialCount) * L.sizeofPartialDescriptor)

/-- The sub-counts `K1, ..., KN` of the resource list at `base`, where `N` is
its `Count` field. -/
def listCounts (L : Layout) (m : Mem) (base : Nat) : List Nat :=
  readCounts L m (readULONG m (base + L.offCount)) (base + L.offList)

/-- The bytes a block with sub-count `k` occupies: the part before the
array of partial descriptors and `k` partial descriptors. -/
def blockExtent (L : Layout) (k : Nat) : Nat :=
  L.offPartialDescriptors + k * L.sizeofPartialDescriptor

/-- The bytes the blocks with sub-counts `ks` occupy. -/
def blocksExtent (L : Layout) (ks : List Nat) : Nat :=
  (ks.map (blockExtent L)).sum

/-- The bytes a resource list with sub-counts `ks` occupies: the part of
`CM_RESOURCE_LIST` before `List`, and the blocks. -/
def listExtent (L : Layout) (ks : List Nat) : Nat :=
  L.offList + blocksExtent L ks

/-- The value `sizeof(CM_FULL_RESOURCE_DESCRIPTOR) + (k - 1) *
sizeof(CM_PARTIAL_RESOURCE_DESCRIPTOR)` over the integers, as a natural
number: for `k = 0` it is the difference of the two sizes. -/
def blockTerm (L : Layout) (k : Nat) : Nat :=
  if k = 0 then L.sizeofFullDescriptor - L.sizeofPartialDescriptor
  else L.sizeofFullDescriptor + (k - 1) * L.sizeofPartialDescriptor

/-- The update of `Size` in one iteration, as a function of the sub-count. -/
def addBlock (L : Layout) (Size k : Nat) : Nat :=
  toULONG (Size + (L.sizeofFullDescriptor
      + toULONG (k + ULONG_MODULUS - 1) * L.sizeofPartialDescriptor))

/-! ## CopyResourceList -/

/-- A call of a kernel service by `CopyResourceList`, with its arguments. -/
inductive PoolCall where
  | ExAllocatePoolWithTag (PoolType NumberOfBytes Tag : Nat)
  | RtlCopyMemory (Destination Source Length : Nat)
deriving DecidableEq

/-- The kernel service `RtlCopyMemory(Destination, Source, Length)`: the
`Length` bytes from `Destination` on become the `Length` bytes from `Source`
on, every other byte stays. (It is `memcpy`: the two regions are not to
overlap.) -/
def RtlCopyMemory (m : Mem) (Destination Source Length : Nat) : Mem :=
  fun a =>
    if Destination ≤ a ∧ a < Destination + Length then m (Source + (a - Destination)) else m a

/-- What a call of `CopyResourceList` leaves: the pointer it returns (`0` is
`NULL`), the memory, and the kernel services it called, in order. -/
structure CopyResult where
  Destination : Nat
  mem : Mem
  calls : List PoolCall

/-- The function `CopyResourceList(PoolType, Source)`. The allocator
`ExAllocatePoolWithTag` and the constant `TAG_RESOURCE_LIST` (of `precomp.h`)
are parameters. -/
def CopyResourceList (L : Layout) (TAG_RESOURCE_LIST : Nat)
    (ExAllocatePoolWithTag : Nat → Nat → Nat → Nat) (m : Mem) (PoolType Source : Nat) :
    CopyResult :=
  let Size := GetResourceListSize L m Source
  let Destination := ExAllocatePoolWithTag PoolType Size TAG_RESOURCE_LIST
  if Destination = 0 then
    ⟨0, m, [PoolCall.ExAllocatePoolWithTag PoolType Size TAG_RESOURCE_LIST]⟩
  else
    ⟨Destination, RtlCopyMemory m Destination Source Size,
      [PoolCall.ExAllocatePoolWithTag PoolType Size TAG_RESOURCE_LIST,
       PoolCall.RtlCopyMemory Destination Source Size]⟩

/-- The `n` bytes from address `a` on. -/
def readBytes (m : Mem) (a n : Nat) : List Nat :=
  (List.range n).map (fun i => readUCHAR m (a + i))

/-- A parsed block: the bytes of the block before its partial descriptors
(the block header, with the sub-count in it), the sub-count, and the bytes
of every partial descriptor. -/
structure FullDescriptor where
  Header : List Nat
  Count : Nat
  PartialDescriptors : List (List Nat)
deriving DecidableEq

/-- A parsed resource list: the bytes before the first block, the count of
blocks, and the blocks. -/
structure ResourceList where
  Header : List Nat
  Count : Nat
  Blocks : List FullDescriptor
deriving DecidableEq

/-- The parse of `n` blocks from address `c` on. -/
def parseBlocks (L : Layout) (m : Mem) : Nat → Nat → List FullDescriptor
  | 0, _ => []
  | n + 1, c =>
    ⟨readBytes m c L.offPartialDescriptors,
     readULONG m (c + L.offPartialCount),
     (List.range (readULONG m (c + L.offPartialCount))).map (fun j =>
        readBytes m (c + L.offPartialDescriptors + j * L.sizeofPartialDescriptor)
          L.sizeofPartialDescriptor)⟩ ::
      parseBlocks L m n
        (c + L.offPartialDescriptors
          + readULONG m (c + L.offPartialCount) * L.sizeofPartialDescriptor)

/-- The parse of the resource list at `base`. -/
def parseResourceList (L : Layout) (m : Mem) (base : Nat) : ResourceList :=
  ⟨readBytes m base L.offList, readULONG m (base + L.offCount),
   parseBlocks L m (readULONG m (base + L.offCount)) (base + L.offList)⟩

/-! ## Status codes -/

/-- An `NTSTATUS` is a signed 32-bit value. -/
abbrev NTSTATUS := Int

/-- Modelled from the spec: the macro `NT_SUCCESS` is in the SDK headers. The
spec calls its negation a failure of the query; the macro is
`((NTSTATUS)(Status) >= 0)`. -/
def NT_SUCCESS (Status : NTSTATUS) : Bool := decide (0 ≤ Status)

/-- Modelled from the spec: the constant is in `ntstatus.h`; the status of a
wait that ended and of a handoff that succeeded, `0x00000000`. -/
def STATUS_SUCCESS : NTSTATUS := 0

/-- Modelled from the spec: the constant is in `ntstatus.h`; the spec's
"pending" handoff status, `0x00000103`. -/
def STATUS_PENDING : NTSTATUS := 259

/-- Modelled from the spec: the constant is in `ntstatus.h`; the status by
which a completion routine stops the completion of a request,
`0xC0000016` as a signed value. -/
def STATUS_MORE_PROCESSING_REQUIRED : NTSTATUS := -1073741802

/-- Modelled from the spec: the constant is in `ntstatus.h`; the spec's
"not supported" default outcome, `0xC00000BB` as a signed value. -/
def STATUS_NOT_SUPPORTED : NTSTATUS := -1073741637

/-- Modelled from the spec: the constant is in `ntstatus.h`; the spec's
resource-exhaustion status, `0xC000009A` as a signed value. -/
def STATUS_INSUFFICIENT_RESOURCES : NTSTATUS := -1073741670

/-! ## GetBusInterface -/

/-- The values of `INTERFACE_TYPE` that `GetBusInterface` returns. -/
inductive INTERFACE_TYPE where
  | InterfaceTypeUndefined
  | PCIBus
  | PCMCIABus
  | PNPISABus
deriving DecidableEq

/-- The value of `sizeof(GUID)`: a GUID is 16 bytes. -/
def sizeofGUID : Nat := 16

/-- Modelled from the spec: the kernel service `RtlCompareMemory` is not in
`misc.c`. The spec compares identifiers by exact byte equality; the service
returns the number of bytes that are equal in the two blocks up to the first
difference, among the first `Length` ones. -/
def RtlCompareMemory : List Nat → List Nat → Nat → Nat
  | a :: Source1, b :: Source2, n + 1 =>
    if a = b then RtlCompareMemory Source1 Source2 n + 1 else 0
  | _, _, _ => 0

/-- The three bus type GUID constants of `wdmguid.h`, as bytes. -/
structure BusTypeGuids where
  GUID_BUS_TYPE_PCMCIA : List Nat
  GUID_BUS_TYPE_PCI : List Nat
  GUID_BUS_TYPE_ISAPNP : List Nat

/-- The device property `GetBusInterface` asks for. -/
inductive DEVICE_REGISTRY_PROPERTY where
  | DevicePropertyBusTypeGuid
deriving DecidableEq

/-- What a call of `IoGetDeviceProperty` leaves: the status it returns, the
bytes of the buffer `Guid` after the call, and `Length`. -/
structure DevicePropertyResult where
  Status : NTSTATUS
  Guid : List Nat
  Length : Nat

/-- The function `GetBusInterface(DeviceObject)`. The kernel service
`IoGetDeviceProperty` is a parameter: it gets the device, the property and
the buffer length. -/
def GetBusInterface (G : BusTypeGuids)
    (IoGetDeviceProperty : Nat → DEVICE_REGISTRY_PROPERTY → Nat → DevicePropertyResult)
    (DeviceObject : Nat) : INTERFACE_TYPE :=
  let r := IoGetDeviceProperty DeviceObject
    DEVICE_REGISTRY_PROPERTY.DevicePropertyBusTypeGuid sizeofGUID
  if !NT_SUCCESS r.Status then INTERFACE_TYPE.InterfaceTypeUndefined
  else if RtlCompareMemory r.Guid G.GUID_BUS_TYPE_PCMCIA sizeofGUID = sizeofGUID then
    INTERFACE_TYPE.PCMCIABus
  else if RtlCompareMemory r.Guid G.GUID_BUS_TYPE_PCI sizeofGUID = sizeofGUID then
    INTERFACE_TYPE.PCIBus
  else if RtlCompareMemory r.Guid G.GUID_BUS_TYPE_ISAPNP sizeofGUID = sizeofGUID then
    INTERFACE_TYPE.PNPISABus
  else INTERFACE_TYPE.InterfaceTypeUndefined

/-- The byte sequence of `GUID_BUS_TYPE_PCMCIA`,
`09343630-af9f-11d0-92e9-0000f81e1b30`. -/
def guidPCMCIA : List Nat :=
  [0x30, 0x36, 0x34, 0x09, 0x9f, 0xaf, 0xd0, 0x11, 0x92, 0xe9, 0x00, 0x00, 0xf8, 0x1e, 0x1b, 0x30]

/-- The byte sequence of `GUID_BUS_TYPE_PCI`,
`c8ebdfb0-b510-11d0-80e5-00a0c92542e3`. -/
def guidPCI : List Nat :=
  [0xb0, 0xdf, 0xeb, 0xc8, 0x10, 0xb5, 0xd0, 0x11, 0x80, 0xe5, 0x00, 0xa0, 0xc9, 0x25, 0x42, 0xe3]

/-- The byte sequence of `GUID_BUS_TYPE_ISAPNP`,
`e676f854-d87d-11d0-92b2-00a0c9055fc5`. -/
def guidISAPNP : List Nat :=
  [0x54, 0xf8, 0x76, 0xe6, 0x7d, 0xd8, 0xd0, 0x11, 0x92, 0xb2, 0x00, 0xa0, 0xc9, 0x05, 0x5f, 0xc5]

/-- The three constants with the values of `wdmguid.h`. -/
def ntGuids : BusTypeGuids := ⟨guidPCMCIA, guidPCI, guidISAPNP⟩

/-! ## Requests, events and the lower driver

The I/O manager and the driver below are not in `misc.c`. A request is the
part of an `IRP` the helper functions touch; the driver below is a function
from the request it is handed to what it does with it. A call that never
returns (a wait on an event that is never set) is `none`. -/

/-- The fields of an I/O stack location the helper functions write. -/
structure IO_STACK_LOCATION where
  MajorFunction : Nat
  MinorFunction : Nat
  Parameters : List Nat
deriving DecidableEq

/-- The completion routines of `misc.c`. -/
inductive CompletionRoutine where
  | ForwardIrpAndWaitCompletion
deriving DecidableEq

/-- The part of an `IRP` the helper functions touch. `IoStatus` is
`Irp->IoStatus.Status`; `CompletionRoutine` is the routine registered in the
next stack location (with the local event as its context, to be invoked on
success, error and cancel); `UserIosb` says that `Irp->UserIosb` and
`Irp->UserEvent` are the locals `IoStatus` and `Event` of the function that
built the request. -/
structure IRP where
  PendingReturned : Bool
  IoStatus : NTSTATUS
  CurrentStackLocation : IO_STACK_LOCATION
  NextStackLocation : IO_STACK_LOCATION
  CompletionRoutine : Option CompletionRoutine
  UserIosb : Bool
deriving DecidableEq

/-- A kernel service called during `ForwardIrpAndWait` or
`QueryBusInterface`. -/
inductive KernelCall where
  | KeInitializeEvent
  | IoBuildSynchronousFsdRequest
  | IoCopyCurrentIrpStackLocationToNext
  | IoSetCompletionRoutine
  | IoCallDriver
  | KeSetEvent
  | KeWaitForSingleObject
deriving DecidableEq

/-- The state of one call of `ForwardIrpAndWait` or `QueryBusInterface`: the
request, the local `Event` (whether it is signaled), the local
`IoStatus.Status` of `QueryBusInterface`, and the kernel services called so
far, in order. -/
structure Kernel where
  Irp : IRP
  Event : Bool
  IoStatus : NTSTATUS
  calls : List KernelCall
deriving DecidableEq

/-- The completion of a request by the driver below: the value it stores in
`Irp->IoStatus.Status` before it completes the request (`none` when it
leaves the field as it is), and whether it had marked the request pending,
which the I/O manager copies to `Irp->PendingReturned`. -/
structure Completion where
  Status : Option NTSTATUS
  PendingReturned : Bool
deriving DecidableEq

/-- When the driver below completes a request: before `IoCallDriver`
returns, or after it, from another context. -/
inductive CompletionTime where
  | InCall
  | Later
deriving DecidableEq

/-- What the driver below does with a request: the status `IoCallDriver`
returns, and the completion of the request, if it ever completes it. -/
structure DriverResponse where
  Status : NTSTATUS
  completion : Option (CompletionTime × Completion)
deriving DecidableEq

/-- The completion routine `ForwardIrpAndWaitCompletion(DeviceObject, Irp,
Context)`, with the local event as `Context`. -/
def ForwardIrpAndWaitCompletion (w : Kernel) : NTSTATUS × Kernel :=
  if w.Irp.PendingReturned then
    (STATUS_MORE_PROCESSING_REQUIRED,
      { w with Event := true, calls := w.calls ++ [KernelCall.KeSetEvent] })
  else (STATUS_MORE_PROCESSING_REQUIRED, w)

/-- Modelled from the spec: the I/O manager's `IoCompleteRequest` is not in
`misc.c`. The driver's final status and pending mark reach the request, then
the registered completion callback runs; unless it answers that more
processing is required, the request that was built with a user status block
and event gets its status copied to that block and that event set. -/
def IoCompleteRequest (c : Completion) (w : Kernel) : Kernel :=
  let w1 : Kernel :=
    { w with Irp := { w.Irp with IoStatus := c.Status.getD w.Irp.IoStatus,
                                 PendingReturned := c.PendingReturned } }
  let r : NTSTATUS × Kernel :=
    match w1.Irp.CompletionRoutine with
    | some CompletionRoutine.ForwardIrpAndWaitCompletion => ForwardIrpAndWaitCompletion w1
    | none => (STATUS_SUCCESS, w1)
  if r.1 = STATUS_MORE_PROCESSING_REQUIRED then r.2
  else if r.2.Irp.UserIosb then
    { r.2 with IoStatus := r.2.Irp.IoStatus, Event := true,
               calls := r.2.calls ++ [KernelCall.KeSetEvent] }
  else r.2

/-- Modelled from the spec: `IoCallDriver` is not in `misc.c`. The handoff
of the request to the driver below: it returns the driver's status, and the
request is completed before the return if the driver completes it in the
call. -/
def IoCallDriver (LowerDevice : IRP → DriverResponse) (w : Kernel) : NTSTATUS × Kernel :=
  let r := LowerDevice w.Irp
  let w1 : Kernel := { w with calls := w.calls ++ [KernelCall.IoCallDriver] }
  match r.completion with
  | some (CompletionTime.InCall, c) => (r.Status, IoCompleteRequest c w1)
  | _ => (r.Status, w1)

/-- Modelled from the spec: `KeWaitForSingleObject` is not in `misc.c`. The
wait has no timeout and cannot be cancelled: the caller is suspended until
the event is set. A completion that is still to come happens during the
wait; the wait then ends with `STATUS_SUCCESS` if the event is set, and
never ends otherwise. -/
def KeWaitForSingleObject (LowerDevice : IRP → DriverResponse) (Irp0 : IRP) (w : Kernel) :
    Option (NTSTATUS × Kernel) :=
  let w1 : Kernel :=
    match (LowerDevice Irp0).completion with
    | some (CompletionTime.Later, c) => IoCompleteRequest c w
    | _ => w
  if w1.Event then
    some (STATUS_SUCCESS, { w1 with calls := w1.calls ++ [KernelCall.KeWaitForSingleObject] })
  else none

/-- Modelled from the spec: `IoCopyCurrentIrpStackLocationToNext` is in the
SDK headers. It copies the current layer's parameter block into the next
layer's slot. -/
def IoCopyCurrentIrpStackLocationToNext (Irp : IRP) : IRP :=
  { Irp with NextStackLocation := Irp.CurrentStackLocation, CompletionRoutine := none }

/-- Modelled from the spec: `IoSetCompletionRoutine` is in the SDK headers.
It registers the completion callback of the request. -/
def IoSetCompletionRoutine (Irp : IRP) (Routine : CompletionRoutine) : IRP :=
  { Irp with CompletionRoutine := some Routine }

/-! ## ForwardIrpAndWait -/

/-- The function `ForwardIrpAndWait(LowerDevice, Irp)`: the status it returns
and the state it leaves, or `none` when it never returns. `IoStatus0` is the
value of the unused field `IoStatus` of the state. -/
def ForwardIrpAndWait (LowerDevice : IRP → DriverResponse) (Irp : IRP) (IoStatus0 : NTSTATUS) :
    Option (NTSTATUS × Kernel) :=
  let w0 : Kernel := ⟨Irp, false, IoStatus0, [KernelCall.KeInitializeEvent]⟩
  let w1 : Kernel :=
    { w0 with Irp := IoCopyCurrentIrpStackLocationToNext w0.Irp,
              calls := w0.calls ++ [KernelCall.IoCopyCurrentIrpStackLocationToNext] }
  let w2 : Kernel :=
    { w1 with Irp := IoSetCompletionRoutine w1.Irp CompletionRoutine.ForwardIrpAndWaitCompletion,
              calls := w1.calls ++ [KernelCall.IoSetCompletionRoutine] }
  let r := IoCallDriver LowerDevice w2
  if r.1 = STATUS_PENDING then
    match KeWaitForSingleObject LowerDevice w2.Irp r.2 with
    | none => none
    | some (Status, w3) =>
      if NT_SUCCESS Status then some (w3.Irp.IoStatus, w3) else some (Status, w3)
  else some (r.1, r.2)

/-! ## QueryBusInterface -/

/-- Modelled from the spec: the constants are in the SDK headers; the major
function code `IRP_MJ_PNP` is `0x1b`. -/
def IRP_MJ_PNP : Nat := 27

/-- Modelled from the spec: the constants are in the SDK headers; the minor
function code `IRP_MN_QUERY_INTERFACE` of a capability query is `0x08`. -/
def IRP_MN_QUERY_INTERFACE : Nat := 8

/-- Modelled from the spec: `IoBuildSynchronousFsdRequest` is not in
`misc.c`. It constructs a new request, or fails (`NULL`, here `none`) when
the request cannot be allocated; `allocated` is the request the I/O manager
allocates. The request gets the caller's event and status block as its user
event and user status block, and has no completion routine. -/
def IoBuildSynchronousFsdRequest (allocated : Option IRP) : Option IRP :=
  allocated.map (fun Irp => { Irp with UserIosb := true, CompletionRoutine := none })

/-- The request as `QueryBusInterface` hands it to the device: the next stack
location holds the query, and `Irp->IoStatus.Status` is
`STATUS_NOT_SUPPORTED`. -/
def QueryInterfaceIrp (Irp : IRP) (Guid Size Version Interface InterfaceSpecificData : Nat) :
    IRP :=
  { Irp with
    NextStackLocation :=
      ⟨IRP_MJ_PNP, IRP_MN_QUERY_INTERFACE,
        [Guid, Size, Version, Interface, InterfaceSpecificData]⟩,
    IoStatus := STATUS_NOT_SUPPORTED }

/-- The function `QueryBusInterface(DeviceObject, Guid, Size, Version,
Interface, InterfaceSpecificData)`: the status it returns and the state it
leaves (none when no request was built), or `none` when it never returns.
`allocated` is the request the I/O manager allocates, `DeviceObject` is the
handler of the device, and `IoStatus0` is the value of the uninitialised
local `IoStatus.Status`. -/
def QueryBusInterface (allocated : Option IRP) (DeviceObject : IRP → DriverResponse)
    (Guid Size Version Interface InterfaceSpecificData : Nat) (IoStatus0 : NTSTATUS) :
    Option (NTSTATUS × Option Kernel) :=
  match IoBuildSynchronousFsdRequest allocated with
  | none => some (STATUS_INSUFFICIENT_RESOURCES, none)
  | some Irp =>
    let w : Kernel :=
      ⟨QueryInterfaceIrp Irp Guid Size Version Interface InterfaceSpecificData, false, IoStatus0,
        [KernelCall.KeInitializeEvent, KernelCall.IoBuildSynchronousFsdRequest]⟩
    let r := IoCallDriver DeviceObject w
    if r.1 = STATUS_PENDING then
      match KeWaitForSingleObject DeviceObject w.Irp r.2 with
      | none => none
      | some (_, w3) => some (w3.IoStatus, some w3)
    else some (r.1, some r.2)

/-- A request with nothing in it. -/
def blankIrp : IRP := ⟨false, 0, ⟨0, 0, []⟩, ⟨0, 0, []⟩, none, false⟩

/-- The request as `ForwardIrpAndWait` hands it to the lower driver. -/
def forwardedIrp (Irp : IRP) : IRP :=
  IoSetCompletionRoutine (IoCopyCurrentIrpStackLocationToNext Irp)
    CompletionRoutine.ForwardIrpAndWaitCompletion

/-! ## Lemmas on the size walk -/

theorem readUCHAR_lt (m : Mem) (a : Nat) : readUCHAR m a < 256 :=
  Nat.mod_lt _ (by decide)

theorem readULONG_lt (m : Mem) (a : Nat) : readULONG m a < ULONG_MODULUS := by
  have h0 := readUCHAR_lt m a
  have h1 := readUCHAR_lt m (a + 1)
  have h2 := readUCHAR_lt m (a + 2)
  have h3 := readUCHAR_lt m (a + 3)
  unfold readULONG ULONG_MODULUS
  omega

theorem readCounts_length (L : Layout) (m : Mem) (n c : Nat) :
    (readCounts L m n c).length = n := by
  induction n generalizing c with
  | zero => rfl
  | succ n ih => simp [readCounts, ih]

theorem readCounts_lt (L : Layout) (m : Mem) (n c : Nat) :
    ∀ k ∈ readCounts L m n c, k < ULONG_MODULUS := by
  induction n generalizing c with
  | zero => intro k hk; simp [readCounts] at hk
  | succ n ih =>
    intro k hk
    simp only [readCounts, List.mem_cons] at hk
    rcases hk with rfl | hk
    · exact readULONG_lt m _
    · exact ih _ k hk

/-- The loop of `GetResourceListSize` in terms of the sub-counts it reads:
the cursor moves by the extent of the blocks, and `Size` is updated once for
every sub-count. -/
theorem sizeLoop_eq (L : Layout) (m : Mem) (n c S : Nat) :
    sizeLoop L m n (c, S)
      = (c + blocksExtent L (readCounts L m n c),
         (readCounts L m n c).foldl (addBlock L) S) := by
  induction n generalizing c S with
  | zero => simp [sizeLoop, readCounts, blocksExtent]
  | succ n ih =>
    simp only [sizeLoop, sizeStep, readCounts, ih, blocksExtent, List.map_cons, List.sum_cons,
      List.foldl_cons, addBlock, blockExtent]
    refine Prod.ext ?_ rfl
    simp only
    omega

/-- One update of `Size` without wrap-around of the result. -/
theorem addBlock_eq (L : Layout) (S k : Nat) (hk : k < ULONG_MODULUS)
    (hP : k = 0 → L.sizeofPartialDescriptor ≤ L.sizeofFullDescriptor)
    (hfit : S + blockTerm L k < ULONG_MODULUS) :
    addBlock L S k = S + blockTerm L k := by
  unfold addBlock blockTerm toULONG ULONG_MODULUS at *
  by_cases h0 : k = 0
  · subst h0
    have := hP rfl
    simp only [if_true] at hfit ⊢
    omega
  · simp only [h0, if_false] at hfit ⊢
    have h1 : (k + 4294967296 - 1) % 4294967296 = k - 1 := by omega
    rw [h1]
    exact Nat.mod_eq_of_lt hfit

/-- The updates of `Size` over the sub-counts `ks` without wrap-around. -/
theorem foldl_addBlock_eq (L : Layout) (ks : List Nat) (S : Nat)
    (hk : ∀ k ∈ ks, k < ULONG_MODULUS)
    (hP : ∀ k ∈ ks, k = 0 → L.sizeofPartialDescriptor ≤ L.sizeofFullDescriptor)
    (hfit : S + (ks.map (blockTerm L)).sum < ULONG_MODULUS) :
    ks.foldl (addBlock L) S = S + (ks.map (blockTerm L)).sum := by
  induction ks generalizing S with
  | nil => simp
  | cons k ks ih =>
    simp only [List.map_cons, List.sum_cons, List.foldl_cons] at hfit ⊢
    have h1 : addBlock L S k = S + blockTerm L k :=
      addBlock_eq L S k (hk k (List.mem_cons_self _ _)) (hP k (List.mem_cons_self _ _)) (by omega)
    rw [h1, ih (S + blockTerm L k) (fun x hx => hk x (List.mem_cons_of_mem _ hx))
      (fun x hx => hP x (List.mem_cons_of_mem _ hx)) (by omega)]
    omega

/-- The value of `GetResourceListSize` in terms of the sub-counts of the
list, the early return for `Count == 0` included. -/
theorem GetResourceListSize_eq_foldl (L : Layout) (m : Mem) (base : Nat) :
    GetResourceListSize L m base
      = (listCounts L m base).foldl (addBlock L) (toULONG L.sizeofResourceList) := by
  unfold GetResourceListSize GetResourceListSizeState listCounts
  by_cases h0 : readULONG m (base + L.offCount) = 0
  · simp [h0, readCounts]
  · simp [h0, sizeLoop_eq]

/-- The cursor of `GetResourceListSize` ends at the end of the list. -/
theorem GetResourceListSizeState_fst (L : Layout) (m : Mem) (base : Nat) :
    (GetResourceListSizeState L m base).1 = base + listExtent L (listCounts L m base) := by
  unfold GetResourceListSizeState listCounts listExtent
  rw [sizeLoop_eq]
  simp only
  omega

/-- Without wrap-around, `GetResourceListSize` is `sizeof(CM_RESOURCE_LIST)`
plus the term of every block. -/
theorem GetResourceListSize_eq_sum (L : Layout) (m : Mem) (base : Nat)
    (hP : ∀ k ∈ listCounts L m base, k = 0 →
      L.sizeofPartialDescriptor ≤ L.sizeofFullDescriptor)
    (hfit : L.sizeofResourceList + ((listCounts L m base).map (blockTerm L)).sum
      < ULONG_MODULUS) :
    GetResourceListSize L m base
      = L.sizeofResourceList + ((listCounts L m base).map (blockTerm L)).sum := by
  have hH : toULONG L.sizeofResourceList = L.sizeofResourceList :=
    Nat.mod_eq_of_lt (by omega)
  rw [GetResourceListSize_eq_foldl, hH]
  exact foldl_addBlock_eq L _ _ (readCounts_lt L m _ _) hP hfit

theorem blockTerm_of_pos (L : Layout) (k : Nat) (hk : 1 ≤ k) :
    blockTerm L k = L.sizeofFullDescriptor + (k - 1) * L.sizeofPartialDescriptor := by
  unfold blockTerm
  rw [if_neg (by omega)]

theorem map_blockTerm_of_pos (L : Layout) (ks : List Nat) (hpos : ∀ k ∈ ks, 1 ≤ k) :
    ks.map (blockTerm L)
      = ks.map (fun k => L.sizeofFullDescriptor + (k - 1) * L.sizeofPartialDescriptor) :=
  List.map_congr_left (fun k hk => blockTerm_of_pos L k (hpos k hk))

/-! ## GetResourceListSize: the claims -/

/-- C1: for a resource list whose blocks have the sub-counts `K1, ..., KN`
(read by a cursor that moves past `Ki` partial descriptors of each block in
turn), every `Ki` at least one, and whose total fits in a `ULONG`,
`GetResourceListSize` returns `sizeof(CM_RESOURCE_LIST)` plus the sum over
the blocks of `sizeof(CM_FULL_RESOURCE_DESCRIPTOR) + (Ki - 1) *
sizeof(CM_PARTIAL_RESOURCE_DESCRIPTOR)`; for `N = 0` that is
`sizeof(CM_RESOURCE_LIST)`. -/
theorem GetResourceListSize_formula (L : Layout) (m : Mem) (base : Nat) (ks : List Nat)
    (hks : listCounts L m base = ks) (hpos : ∀ k ∈ ks, 1 ≤ k)
    (hfit : L.sizeofResourceList
      + (ks.map (fun k => L.sizeofFullDescriptor + (k - 1) * L.sizeofPartialDescriptor)).sum
        < ULONG_MODULUS) :
    GetResourceListSize L m base
        = L.sizeofResourceList
          + (ks.map (fun k =>
              L.sizeofFullDescriptor + (k - 1) * L.sizeofPartialDescriptor)).sum
      ∧ ks.length = readULONG m (base + L.offCount)
      ∧ (ks = [] → GetResourceListSize L m base = L.sizeofResourceList) := by
  subst hks
  have hmap := map_blockTerm_of_pos L _ hpos
  have hsum : GetResourceListSize L m base
      = L.sizeofResourceList
        + ((listCounts L m base).map (fun k =>
            L.sizeofFullDescriptor + (k - 1) * L.sizeofPartialDescriptor)).sum := by
    rw [← hmap]
    exact GetResourceListSize_eq_sum L m base
      (fun k hk h0 => absurd (hpos k hk) (by omega)) (by rw [hmap]; exact hfit)
  refine ⟨hsum, ?_, ?_⟩
  · exact readCounts_length L m _ _
  · intro hnil
    rw [hsum, hnil]
    simp

/-- The witness of C1: a list of two blocks with two and three partial
descriptors in the 32-bit layout has size `36 + (32 + 16) + (32 + 32)`. -/
theorem GetResourceListSize_formula_witness :
    listCounts ntLayout (memOfBytes 1000 (encodeList 7 [2, 3])) 1000 = [2, 3]
      ∧ GetResourceListSize ntLayout (memOfBytes 1000 (encodeList 7 [2, 3])) 1000
          = 36 + ([2, 3].map (fun k => 32 + (k - 1) * 16)).sum :=
  ⟨by decide,
   (GetResourceListSize_formula ntLayout (memOfBytes 1000 (encodeList 7 [2, 3])) 1000 [2, 3]
      (by decide) (by decide) (by decide)).1⟩

/-- The values of `GetResourceListSize` on small lists of the 32-bit
layout. -/
theorem GetResourceListSize_small_lists :
    GetResourceListSize ntLayout (memOfBytes 1000 (encodeList 7 [])) 1000 = 36
      ∧ GetResourceListSize ntLayout (memOfBytes 1000 (encodeList 7 [3])) 1000 = 100
      ∧ GetResourceListSize ntLayout (memOfBytes 1000 (encodeList 7 [2, 3])) 1000 = 148
      ∧ GetResourceListSize ntLayout (memOfBytes 1000 (encodeList 7 [1, 0, 2])) 1000 = 132 := by
  decide

/-- Where `CM_RESOURCE_LIST` is exactly its part before `List` and one block,
and a block exactly its part before `PartialDescriptors` and one partial
descriptor, the value of `GetResourceListSize` is the extent of the list
plus `sizeof(CM_FULL_RESOURCE_DESCRIPTOR)`, whatever the list. -/
theorem GetResourceListSize_eq_extent_add (L : Layout) (m : Mem) (base : Nat)
    (hF : L.sizeofFullDescriptor = L.offPartialDescriptors + L.sizeofPartialDescriptor)
    (hH : L.sizeofResourceList = L.offList + L.sizeofFullDescriptor)
    (hfit : L.sizeofResourceList + ((listCounts L m base).map (blockTerm L)).sum
      < ULONG_MODULUS) :
    GetResourceListSize L m base
      = listExtent L (listCounts L m base) + L.sizeofFullDescriptor := by
  rw [GetResourceListSize_eq_sum L m base (fun _ _ _ => by omega) hfit]
  have hterm : ∀ ks : List Nat, (ks.map (blockTerm L)).sum = blocksExtent L ks := by
    intro ks
    induction ks with
    | nil => rfl
    | cons k ks ih =>
      simp only [List.map_cons, List.sum_cons, blocksExtent] at ih ⊢
      rw [ih]
      have hk : blockTerm L k = blockExtent L k := by
        unfold blockTerm blockExtent
        by_cases h0 : k = 0
        · subst h0; simp; omega
        · obtain ⟨j, rfl⟩ := Nat.exists_eq_succ_of_ne_zero h0
          simp [Nat.succ_mul]
          omega
      rw [hk]
  rw [hterm]
  unfold listExtent
  omega

/-- C2: in the 32-bit layout, for the list of one block with one partial
descriptor, which is exactly one `CM_RESOURCE_LIST` of 36 bytes, the cursor
of `GetResourceListSize` ends 36 bytes after the start of the list, and
`GetResourceListSize` returns 68: the exact size plus
`sizeof(CM_FULL_RESOURCE_DESCRIPTOR)`. -/
theorem GetResourceListSize_exceeds_extent :
    listCounts ntLayout (memOfBytes 1000 (encodeList 7 [1])) 1000 = [1]
      ∧ listExtent ntLayout [1] = 36
      ∧ (GetResourceListSizeState ntLayout (memOfBytes 1000 (encodeList 7 [1])) 1000).1
          = 1000 + 36
      ∧ GetResourceListSize ntLayout (memOfBytes 1000 (encodeList 7 [1])) 1000 = 68 := by
  decide

/-- C10, as stated, fails: in the 32-bit layout, for the list of one block
with no partial descriptor, the term `Count - 1` wraps to `2^32 - 1`, and
the running total after the block is `36 + 16`, not `36 + 32`. -/
theorem zero_count_block_counterexample :
    listCounts ntLayout (memOfBytes 1000 (encodeList 7 [0])) 1000 = [0]
      ∧ toULONG (0 + ULONG_MODULUS - 1) = 4294967295
      ∧ sizeStep ntLayout (memOfBytes 1000 (encodeList 7 [0])) (1004, 36) = (1020, 52)
      ∧ (sizeStep ntLayout (memOfBytes 1000 (encodeList 7 [0])) (1004, 36)).2
          ≠ 36 + ntLayout.sizeofFullDescriptor
      ∧ GetResourceListSize ntLayout (memOfBytes 1000 (encodeList 7 [0])) 1000 = 52 := by
  decide

/-- C10, amended: a block whose sub-count is zero adds
`sizeof(CM_FULL_RESOURCE_DESCRIPTOR) - sizeof(CM_PARTIAL_RESOURCE_DESCRIPTOR)`
to the running total: the term `Count - 1` wraps to `2^32 - 1`, and the wrap
cancels in the `ULONG` sum, so that the total after the block is the total
before it plus that difference, whenever this fits in a `ULONG`. -/
theorem zero_count_block_adds_difference (L : Layout) (m : Mem) (Descriptor Size : Nat)
    (hzero : readULONG m (Descriptor + L.offPartialCount) = 0)
    (hP : L.sizeofPartialDescriptor ≤ L.sizeofFullDescriptor)
    (hfit : Size + (L.sizeofFullDescriptor - L.sizeofPartialDescriptor) < ULONG_MODULUS) :
    toULONG (readULONG m (Descriptor + L.offPartialCount) + ULONG_MODULUS - 1)
        = ULONG_MODULUS - 1
      ∧ (sizeStep L m (Descriptor, Size)).2
        = Size + (L.sizeofFullDescriptor - L.sizeofPartialDescriptor)
      ∧ (sizeStep L m (Descriptor, Size)).1 = Descriptor + L.offPartialDescriptors := by
  refine ⟨?_, ?_, ?_⟩
  · rw [hzero]; decide
  · have h := addBlock_eq L Size 0 (by decide) (fun _ => hP) (by simpa [blockTerm] using hfit)
    simp only [sizeStep, hzero]
    simpa [addBlock, blockTerm] using h
  · simp [sizeStep, hzero]

/-- The witness of C10, amended: the block with no partial descriptor of the
32-bit layout adds `32 - 16` to the total `36`. -/
theorem zero_count_block_adds_difference_witness :
    readULONG (memOfBytes 1000 (encodeList 7 [0])) (1004 + ntLayout.offPartialCount) = 0
      ∧ (sizeStep ntLayout (memOfBytes 1000 (encodeList 7 [0])) (1004, 36)).2
          = 36 + (ntLayout.sizeofFullDescriptor - ntLayout.sizeofPartialDescriptor) :=
  ⟨by decide,
   (zero_count_block_adds_difference ntLayout (memOfBytes 1000 (encodeList 7 [0])) 1004 36
      (by decide) (by decide) (by decide)).2.1⟩

/-! ## CopyResourceList: lemmas -/

theorem readULONG_congr (m1 m2 : Mem) (a1 a2 : Nat)
    (h : ∀ x, x < 4 → m1 (a1 + x) = m2 (a2 + x)) :
    readULONG m1 a1 = readULONG m2 a2 := by
  have h0 := h 0 (by omega)
  have h1 := h 1 (by omega)
  have h2 := h 2 (by omega)
  have h3 := h 3 (by omega)
  simp only [Nat.add_zero] at h0
  simp only [readULONG, readUCHAR, h0, h1, h2, h3]

theorem readBytes_congr (m1 m2 : Mem) (a1 a2 n : Nat)
    (h : ∀ x, x < n → m1 (a1 + x) = m2 (a2 + x)) :
    readBytes m1 a1 n = readBytes m2 a2 n := by
  unfold readBytes
  apply List.map_congr_left
  intro i hi
  simp only [readUCHAR, h i (List.mem_range.mp hi)]

/-- Two memories that agree on the extent of the blocks, one read from `d`
and the other from `s`, give the same sub-counts and the same parse. -/
theorem blocks_congr (L : Layout) (hL : L.WellFormed) (m1 m2 : Mem) (d s E : Nat)
    (h : ∀ x, x < E → m1 (d + x) = m2 (s + x)) (n o : Nat)
    (hE : o + blocksExtent L (readCounts L m2 n (s + o)) ≤ E) :
    readCounts L m1 n (d + o) = readCounts L m2 n (s + o)
      ∧ parseBlocks L m1 n (d + o) = parseBlocks L m2 n (s + o) := by
  induction n generalizing o with
  | zero => exact ⟨rfl, rfl⟩
  | succ n ih =>
    have h4 := hL.count_before_descriptors
    simp only [readCounts, blocksExtent, List.map_cons, List.sum_cons, blockExtent] at hE
    have hk : readULONG m1 (d + o + L.offPartialCount)
        = readULONG m2 (s + o + L.offPartialCount) := by
      apply readULONG_congr
      intro x hx
      have := h (o + L.offPartialCount + x) (by omega)
      simpa [Nat.add_assoc] using this
    have hnext := ih
      (o + L.offPartialDescriptors
        + readULONG m2 (s + o + L.offPartialCount) * L.sizeofPartialDescriptor)
      (by
        have e : s + (o + L.offPartialDescriptors
            + readULONG m2 (s + o + L.offPartialCount) * L.sizeofPartialDescriptor)
            = s + o + L.offPartialDescriptors
              + readULONG m2 (s + o + L.offPartialCount) * L.sizeofPartialDescriptor := by
          omega
        rw [e]
        simp only [blocksExtent]
        omega)
    have e1 : d + (o + L.offPartialDescriptors
        + readULONG m2 (s + o + L.offPartialCount) * L.sizeofPartialDescriptor)
        = d + o + L.offPartialDescriptors
          + readULONG m2 (s + o + L.offPartialCount) * L.sizeofPartialDescriptor := by
      omega
    have e2 : s + (o + L.offPartialDescriptors
        + readULONG m2 (s + o + L.offPartialCount) * L.sizeofPartialDescriptor)
        = s + o + L.offPartialDescriptors
          + readULONG m2 (s + o + L.offPartialCount) * L.sizeofPartialDescriptor := by
      omega
    rw [e1, e2] at hnext
    have hhead : readBytes m1 (d + o) L.offPartialDescriptors
        = readBytes m2 (s + o) L.offPartialDescriptors := by
      apply readBytes_congr
      intro x hx
      have := h (o + x) (by omega)
      simpa [Nat.add_assoc] using this
    have hparts : ∀ j, j < readULONG m2 (s + o + L.offPartialCount) →
        readBytes m1 (d + o + L.offPartialDescriptors + j * L.sizeofPartialDescriptor)
            L.sizeofPartialDescriptor
          = readBytes m2 (s + o + L.offPartialDescriptors + j * L.sizeofPartialDescriptor)
            L.sizeofPartialDescriptor := by
      intro j hj
      apply readBytes_congr
      intro x hx
      have hmul : (j + 1) * L.sizeofPartialDescriptor
          ≤ readULONG m2 (s + o + L.offPartialCount) * L.sizeofPartialDescriptor :=
        Nat.mul_le_mul_right _ hj
      rw [Nat.succ_mul] at hmul
      have := h (o + L.offPartialDescriptors + j * L.sizeofPartialDescriptor + x) (by omega)
      simpa [Nat.add_assoc] using this
    refine ⟨?_, ?_⟩
    · simp only [readCounts, hk]
      rw [hnext.1]
    · simp only [parseBlocks, hk]
      rw [hnext.2, hhead]
      congr 2
      apply List.map_congr_left
      intro j hj
      exact hparts j (List.mem_range.mp hj)

/-- Two memories that agree on the extent of a resource list give the same
sub-counts and the same parse. -/
theorem list_congr (L : Layout) (hL : L.WellFormed) (m1 m2 : Mem) (d s E : Nat)
    (h : ∀ x, x < E → m1 (d + x) = m2 (s + x))
    (hE : listExtent L (listCounts L m2 s) ≤ E) :
    listCounts L m1 d = listCounts L m2 s
      ∧ parseResourceList L m1 d = parseResourceList L m2 s := by
  have h4 := hL.count_before_list
  unfold listExtent listCounts at hE
  have hc : readULONG m1 (d + L.offCount) = readULONG m2 (s + L.offCount) := by
    apply readULONG_congr
    intro x hx
    have := h (L.offCount + x) (by omega)
    simpa [Nat.add_assoc] using this
  have hb := blocks_congr L hL m1 m2 d s E h (readULONG m2 (s + L.offCount)) L.offList hE
  have hhead : readBytes m1 d L.offList = readBytes m2 s L.offList := by
    apply readBytes_congr
    intro x hx
    exact h x (by omega)
  refine ⟨?_, ?_⟩
  · simp only [listCounts, hc, hb.1]
  · simp only [parseResourceList, hc, hb.2, hhead]

theorem blockExtent_le_blockTerm (L : Layout) (hL : L.WellFormed) (k : Nat) :
    blockExtent L k ≤ blockTerm L k := by
  have hF := hL.full_contains_one
  unfold blockExtent blockTerm
  by_cases h0 : k = 0
  · subst h0; simp; omega
  · obtain ⟨j, rfl⟩ := Nat.exists_eq_succ_of_ne_zero h0
    simp [Nat.succ_mul]
    omega

theorem blocksExtent_le_sum (L : Layout) (hL : L.WellFormed) (ks : List Nat) :
    blocksExtent L ks ≤ (ks.map (blockTerm L)).sum := by
  induction ks with
  | nil => simp [blocksExtent]
  | cons k ks ih =>
    have := blockExtent_le_blockTerm L hL k
    simp only [blocksExtent, List.map_cons, List.sum_cons] at ih ⊢
    omega

/-- Without wrap-around, the value of `GetResourceListSize` covers the
extent of the list. -/
theorem listExtent_le_size (L : Layout) (hL : L.WellFormed) (m : Mem) (base : Nat)
    (hfit : L.sizeofResourceList + ((listCounts L m base).map (blockTerm L)).sum
      < ULONG_MODULUS) :
    listExtent L (listCounts L m base) ≤ GetResourceListSize L m base := by
  have hF := hL.full_contains_one
  have hH := hL.list_contains_one
  rw [GetResourceListSize_eq_sum L m base (fun _ _ _ => by omega) hfit]
  have := blocksExtent_le_sum L hL (listCounts L m base)
  unfold listExtent
  omega

theorem RtlCopyMemory_inside (m : Mem) (d s n x : Nat) (hx : x < n) :
    RtlCopyMemory m d s n (d + x) = m (s + x) := by
  unfold RtlCopyMemory
  rw [if_pos ⟨by omega, by omega⟩]
  congr 1
  omega

theorem RtlCopyMemory_outside (m : Mem) (d s n a : Nat) (ha : a < d ∨ d + n ≤ a) :
    RtlCopyMemory m d s n a = m a := by
  unfold RtlCopyMemory
  rw [if_neg (by omega)]

theorem ntLayout_wellFormed : ntLayout.WellFormed :=
  ⟨by decide, by decide, by decide, by decide⟩

/-! ## CopyResourceList: the claims -/

/-- C3: for a source list whose size fits in a `ULONG` and an allocation
that succeeds, `CopyResourceList` returns the buffer of the allocator, whose
bytes are the bytes of the source one by one; the parse of the duplicate
(the count of blocks and, for every block, its header, its sub-count and
its partial descriptors) is the parse of the source, and
`GetResourceListSize` of the duplicate is that of the source. -/
theorem CopyResourceList_roundtrip (L : Layout) (hL : L.WellFormed) (TAG_RESOURCE_LIST : Nat)
    (ExAllocatePoolWithTag : Nat → Nat → Nat → Nat) (m : Mem) (PoolType Source : Nat)
    (hfit : L.sizeofResourceList + ((listCounts L m Source).map (blockTerm L)).sum
      < ULONG_MODULUS)
    (hok : ExAllocatePoolWithTag PoolType (GetResourceListSize L m Source) TAG_RESOURCE_LIST
      ≠ 0) :
    (CopyResourceList L TAG_RESOURCE_LIST ExAllocatePoolWithTag m PoolType Source).Destination
        = ExAllocatePoolWithTag PoolType (GetResourceListSize L m Source) TAG_RESOURCE_LIST
      ∧ (∀ x, x < GetResourceListSize L m Source →
          (CopyResourceList L TAG_RESOURCE_LIST ExAllocatePoolWithTag m PoolType Source).mem
              ((CopyResourceList L TAG_RESOURCE_LIST ExAllocatePoolWithTag m PoolType
                Source).Destination + x)
            = m (Source + x))
      ∧ parseResourceList L
          (CopyResourceList L TAG_RESOURCE_LIST ExAllocatePoolWithTag m PoolType Source).mem
          (CopyResourceList L TAG_RESOURCE_LIST ExAllocatePoolWithTag m PoolType
            Source).Destination
        = parseResourceList L m Source
      ∧ GetResourceListSize L
          (CopyResourceList L TAG_RESOURCE_LIST ExAllocatePoolWithTag m PoolType Source).mem
          (CopyResourceList L TAG_RESOURCE_LIST ExAllocatePoolWithTag m PoolType
            Source).Destination
        = GetResourceListSize L m Source := by
  have hr : CopyResourceList L TAG_RESOURCE_LIST ExAllocatePoolWithTag m PoolType Source
      = ⟨ExAllocatePoolWithTag PoolType (GetResourceListSize L m Source) TAG_RESOURCE_LIST,
         RtlCopyMemory m
           (ExAllocatePoolWithTag PoolType (GetResourceListSize L m Source) TAG_RESOURCE_LIST)
           Source (GetResourceListSize L m Source),
         [PoolCall.ExAllocatePoolWithTag PoolType (GetResourceListSize L m Source)
            TAG_RESOURCE_LIST,
          PoolCall.RtlCopyMemory
            (ExAllocatePoolWithTag PoolType (GetResourceListSize L m Source) TAG_RESOURCE_LIST)
            Source (GetResourceListSize L m Source)]⟩ := by
    unfold CopyResourceList
    simp only [if_neg hok]
  rw [hr]
  simp only
  have hbytes : ∀ x, x < GetResourceListSize L m Source →
      RtlCopyMemory m
          (ExAllocatePoolWithTag PoolType (GetResourceListSize L m Source) TAG_RESOURCE_LIST)
          Source (GetResourceListSize L m Source)
          (ExAllocatePoolWithTag PoolType (GetResourceListSize L m Source) TAG_RESOURCE_LIST
            + x)
        = m (Source + x) :=
    fun x hx => RtlCopyMemory_inside m _ Source _ x hx
  have hc := list_congr L hL _ m _ Source _ hbytes (listExtent_le_size L hL m Source hfit)
  have e1 := GetResourceListSize_eq_foldl L
    (RtlCopyMemory m
      (ExAllocatePoolWithTag PoolType (GetResourceListSize L m Source) TAG_RESOURCE_LIST)
      Source (GetResourceListSize L m Source))
    (ExAllocatePoolWithTag PoolType (GetResourceListSize L m Source) TAG_RESOURCE_LIST)
  rw [hc.1] at e1
  exact ⟨trivial, hbytes, hc.2, e1.trans (GetResourceListSize_eq_foldl L m Source).symm⟩

/-- The witness of C3: the duplicate at address 5000 of a list of two blocks
at address 1000. -/
theorem CopyResourceList_roundtrip_witness :
    ntLayout.WellFormed
      ∧ parseResourceList ntLayout
          (CopyResourceList ntLayout 1 (fun _ _ _ => 5000)
            (memOfBytes 1000 (encodeList 7 [2, 3])) 0 1000).mem
          (CopyResourceList ntLayout 1 (fun _ _ _ => 5000)
            (memOfBytes 1000 (encodeList 7 [2, 3])) 0 1000).Destination
        = parseResourceList ntLayout (memOfBytes 1000 (encodeList 7 [2, 3])) 1000 :=
  ⟨ntLayout_wellFormed,
   (CopyResourceList_roundtrip ntLayout ntLayout_wellFormed 1 (fun _ _ _ => 5000)
      (memOfBytes 1000 (encodeList 7 [2, 3])) 0 1000 (by decide) (by decide)).2.2.1⟩

/-- C4: `CopyResourceList` asks the allocator for exactly
`GetResourceListSize(Source)` bytes, in the caller's pool type and with the
tag `TAG_RESOURCE_LIST`; when the allocation succeeds it copies exactly that
number of bytes: the bytes of the destination are those of the source, every
byte outside these bytes of the destination is as before, and, the buffer of
the allocator not overlapping the source, the source is as before. -/
theorem CopyResourceList_frame (L : Layout) (TAG_RESOURCE_LIST : Nat)
    (ExAllocatePoolWithTag : Nat → Nat → Nat → Nat) (m : Mem) (PoolType Source : Nat) :
    (CopyResourceList L TAG_RESOURCE_LIST ExAllocatePoolWithTag m PoolType Source).calls.head?
        = some (PoolCall.ExAllocatePoolWithTag PoolType (GetResourceListSize L m Source)
            TAG_RESOURCE_LIST)
      ∧ (ExAllocatePoolWithTag PoolType (GetResourceListSize L m Source) TAG_RESOURCE_LIST ≠ 0 →
          (CopyResourceList L TAG_RESOURCE_LIST ExAllocatePoolWithTag m PoolType Source).calls
              = [PoolCall.ExAllocatePoolWithTag PoolType (GetResourceListSize L m Source)
                  TAG_RESOURCE_LIST,
                 PoolCall.RtlCopyMemory
                  (ExAllocatePoolWithTag PoolType (GetResourceListSize L m Source)
                    TAG_RESOURCE_LIST)
                  Source (GetResourceListSize L m Source)]
            ∧ ∀ x, x < GetResourceListSize L m Source →
                (CopyResourceList L TAG_RESOURCE_LIST ExAllocatePoolWithTag m PoolType
                    Source).mem
                  (ExAllocatePoolWithTag PoolType (GetResourceListSize L m Source)
                    TAG_RESOURCE_LIST + x)
                = m (Source + x))
      ∧ (∀ a,
          (a < ExAllocatePoolWithTag PoolType (GetResourceListSize L m Source) TAG_RESOURCE_LIST
            ∨ ExAllocatePoolWithTag PoolType (GetResourceListSize L m Source) TAG_RESOURCE_LIST
                + GetResourceListSize L m Source ≤ a) →
          (CopyResourceList L TAG_RESOURCE_LIST ExAllocatePoolWithTag m PoolType Source).mem a
            = m a)
      ∧ (ExAllocatePoolWithTag PoolType (GetResourceListSize L m Source) TAG_RESOURCE_LIST
              + GetResourceListSize L m Source ≤ Source
            ∨ Source + GetResourceListSize L m Source
              ≤ ExAllocatePoolWithTag PoolType (GetResourceListSize L m Source)
                  TAG_RESOURCE_LIST →
          ∀ a, Source ≤ a → a < Source + GetResourceListSize L m Source →
            (CopyResourceList L TAG_RESOURCE_LIST ExAllocatePoolWithTag m PoolType
                Source).mem a
              = m a) := by
  have hout : ∀ a,
      (a < ExAllocatePoolWithTag PoolType (GetResourceListSize L m Source) TAG_RESOURCE_LIST
        ∨ ExAllocatePoolWithTag PoolType (GetResourceListSize L m Source) TAG_RESOURCE_LIST
            + GetResourceListSize L m Source ≤ a) →
      (CopyResourceList L TAG_RESOURCE_LIST ExAllocatePoolWithTag m PoolType Source).mem a
        = m a := by
    intro a ha
    unfold CopyResourceList
    by_cases h0 :
        ExAllocatePoolWithTag PoolType (GetResourceListSize L m Source) TAG_RESOURCE_LIST = 0
    · simp only [if_pos h0]
    · simp only [if_neg h0]
      exact RtlCopyMemory_outside m _ Source _ a ha
  refine ⟨?_, ?_, hout, ?_⟩
  · unfold CopyResourceList
    by_cases h0 :
        ExAllocatePoolWithTag PoolType (GetResourceListSize L m Source) TAG_RESOURCE_LIST = 0
    · simp only [if_pos h0, List.head?_cons]
    · simp only [if_neg h0, List.head?_cons]
  · intro h0
    unfold CopyResourceList
    simp only [if_neg h0]
    exact ⟨trivial, fun x hx => RtlCopyMemory_inside m _ Source _ x hx⟩
  · intro hfresh a h1 h2
    exact hout a (by omega)

/-- The witness of C4: a duplicate at address 5000 of a list at address
1000; the byte after the 148 bytes of the destination is as before, and so
is the first byte of the source. -/
theorem CopyResourceList_frame_witness :
    (CopyResourceList ntLayout 1 (fun _ _ _ => 5000)
        (memOfBytes 1000 (encodeList 7 [2, 3])) 0 1000).calls.head?
        = some (PoolCall.ExAllocatePoolWithTag 0 148 1)
      ∧ (CopyResourceList ntLayout 1 (fun _ _ _ => 5000)
          (memOfBytes 1000 (encodeList 7 [2, 3])) 0 1000).mem 5148
        = memOfBytes 1000 (encodeList 7 [2, 3]) 5148
      ∧ (CopyResourceList ntLayout 1 (fun _ _ _ => 5000)
          (memOfBytes 1000 (encodeList 7 [2, 3])) 0 1000).mem 1000
        = memOfBytes 1000 (encodeList 7 [2, 3]) 1000 :=
  ⟨(CopyResourceList_frame ntLayout 1 (fun _ _ _ => 5000)
      (memOfBytes 1000 (encodeList 7 [2, 3])) 0 1000).1,
   (CopyResourceList_frame ntLayout 1 (fun _ _ _ => 5000)
      (memOfBytes 1000 (encodeList 7 [2, 3])) 0 1000).2.2.1 5148 (by decide),
   (CopyResourceList_frame ntLayout 1 (fun _ _ _ => 5000)
      (memOfBytes 1000 (encodeList 7 [2, 3])) 0 1000).2.2.2 (by decide) 1000 (by decide)
      (by decide)⟩

/-- C5: `CopyResourceList` returns `NULL` exactly when the allocator returns
`NULL`; then the allocator was called once, nothing was copied and memory
is as before. Otherwise it returns the buffer of the allocator, after one
call of the allocator and one copy of all `GetResourceListSize(Source)`
bytes. There is no other outcome. -/
theorem CopyResourceList_null_iff (L : Layout) (TAG_RESOURCE_LIST : Nat)
    (ExAllocatePoolWithTag : Nat → Nat → Nat → Nat) (m : Mem) (PoolType Source : Nat) :
    ((CopyResourceList L TAG_RESOURCE_LIST ExAllocatePoolWithTag m PoolType Source).Destination
          = 0
        ↔ ExAllocatePoolWithTag PoolType (GetResourceListSize L m Source) TAG_RESOURCE_LIST = 0)
      ∧ (ExAllocatePoolWithTag PoolType (GetResourceListSize L m Source) TAG_RESOURCE_LIST = 0 →
          (CopyResourceList L TAG_RESOURCE_LIST ExAllocatePoolWithTag m PoolType Source).calls
              = [PoolCall.ExAllocatePoolWithTag PoolType (GetResourceListSize L m Source)
                  TAG_RESOURCE_LIST]
            ∧ (CopyResourceList L TAG_RESOURCE_LIST ExAllocatePoolWithTag m PoolType
                Source).mem = m)
      ∧ (ExAllocatePoolWithTag PoolType (GetResourceListSize L m Source) TAG_RESOURCE_LIST ≠ 0 →
          (CopyResourceList L TAG_RESOURCE_LIST ExAllocatePoolWithTag m PoolType
                Source).Destination
              = ExAllocatePoolWithTag PoolType (GetResourceListSize L m Source)
                  TAG_RESOURCE_LIST
            ∧ (CopyResourceList L TAG_RESOURCE_LIST ExAllocatePoolWithTag m PoolType
                Source).calls
              = [PoolCall.ExAllocatePoolWithTag PoolType (GetResourceListSize L m Source)
                  TAG_RESOURCE_LIST,
                 PoolCall.RtlCopyMemory
                  (ExAllocatePoolWithTag PoolType (GetResourceListSize L m Source)
                    TAG_RESOURCE_LIST)
                  Source (GetResourceListSize L m Source)]
            ∧ ∀ x, x < GetResourceListSize L m Source →
                (CopyResourceList L TAG_RESOURCE_LIST ExAllocatePoolWithTag m PoolType
                    Source).mem
                  (ExAllocatePoolWithTag PoolType (GetResourceListSize L m Source)
                    TAG_RESOURCE_LIST + x)
                = m (Source + x)) := by
  refine ⟨?_, ?_, ?_⟩
  · unfold CopyResourceList
    by_cases h0 :
        ExAllocatePoolWithTag PoolType (GetResourceListSize L m Source) TAG_RESOURCE_LIST = 0
    · simp [h0]
    · simp [h0]
  · intro h0
    unfold CopyResourceList
    simp only [if_pos h0]
    exact ⟨trivial, trivial⟩
  · intro h0
    unfold CopyResourceList
    simp only [if_neg h0]
    exact ⟨trivial, trivial, fun x hx => RtlCopyMemory_inside m _ Source _ x hx⟩

/-- The witness of C5: an allocator that fails, and one that returns the
buffer at address 5000. -/
theorem CopyResourceList_null_iff_witness :
    ((CopyResourceList ntLayout 1 (fun _ _ _ => 0)
          (memOfBytes 1000 (encodeList 7 [2, 3])) 0 1000).calls
        = [PoolCall.ExAllocatePoolWithTag 0
            (GetResourceListSize ntLayout (memOfBytes 1000 (encodeList 7 [2, 3])) 1000) 1]
      ∧ (CopyResourceList ntLayout 1 (fun _ _ _ => 0)
          (memOfBytes 1000 (encodeList 7 [2, 3])) 0 1000).mem
        = memOfBytes 1000 (encodeList 7 [2, 3]))
      ∧ (CopyResourceList ntLayout 1 (fun _ _ _ => 5000)
          (memOfBytes 1000 (encodeList 7 [2, 3])) 0 1000).Destination = 5000 :=
  ⟨(CopyResourceList_null_iff ntLayout 1 (fun _ _ _ => 0)
      (memOfBytes 1000 (encodeList 7 [2, 3])) 0 1000).2.1 rfl,
   ((CopyResourceList_null_iff ntLayout 1 (fun _ _ _ => 5000)
      (memOfBytes 1000 (encodeList 7 [2, 3])) 0 1000).2.2 (by decide)).1⟩

/-! ## GetBusInterface -/

/-- On two blocks of `n` bytes, `RtlCompareMemory` returns `n` exactly when
the blocks are equal byte for byte. -/
theorem RtlCompareMemory_eq_iff (n : Nat) (a b : List Nat) (ha : a.length = n)
    (hb : b.length = n) : RtlCompareMemory a b n = n ↔ a = b := by
  induction n generalizing a b with
  | zero =>
    have ha0 := List.length_eq_zero.mp ha
    have hb0 := List.length_eq_zero.mp hb
    subst ha0 hb0
    simp [RtlCompareMemory]
  | succ n ih =>
    cases a with
    | nil => simp at ha
    | cons x a =>
      cases b with
      | nil => simp at hb
      | cons y b =>
        simp only [List.length_cons, Nat.add_right_cancel_iff] at ha hb
        simp only [RtlCompareMemory, List.cons.injEq]
        by_cases hxy : x = y
        · simp [hxy, ih a b ha hb]
        · simp [hxy]

/-- C6: `GetBusInterface` is determined by the property query. If the query
fails it returns `InterfaceTypeUndefined`, whatever the buffer holds. If it
succeeds with a GUID `g` of 16 bytes, it returns `PCMCIABus` when `g` is
`GUID_BUS_TYPE_PCMCIA` byte for byte, else `PCIBus` when `g` is
`GUID_BUS_TYPE_PCI`, else `PNPISABus` when `g` is `GUID_BUS_TYPE_ISAPNP`,
and `InterfaceTypeUndefined` when `g` is none of the three. -/
theorem GetBusInterface_classifies (G : BusTypeGuids)
    (IoGetDeviceProperty : Nat → DEVICE_REGISTRY_PROPERTY → Nat → DevicePropertyResult)
    (DeviceObject : Nat)
    (h1 : G.GUID_BUS_TYPE_PCMCIA.length = 16) (h2 : G.GUID_BUS_TYPE_PCI.length = 16)
    (h3 : G.GUID_BUS_TYPE_ISAPNP.length = 16) :
    (NT_SUCCESS (IoGetDeviceProperty DeviceObject
          DEVICE_REGISTRY_PROPERTY.DevicePropertyBusTypeGuid sizeofGUID).Status = false →
        GetBusInterface G IoGetDeviceProperty DeviceObject
          = INTERFACE_TYPE.InterfaceTypeUndefined)
      ∧ (NT_SUCCESS (IoGetDeviceProperty DeviceObject
            DEVICE_REGISTRY_PROPERTY.DevicePropertyBusTypeGuid sizeofGUID).Status = true →
          (IoGetDeviceProperty DeviceObject
            DEVICE_REGISTRY_PROPERTY.DevicePropertyBusTypeGuid sizeofGUID).Guid.length = 16 →
          GetBusInterface G IoGetDeviceProperty DeviceObject
            = if (IoGetDeviceProperty DeviceObject
                  DEVICE_REGISTRY_PROPERTY.DevicePropertyBusTypeGuid sizeofGUID).Guid
                  = G.GUID_BUS_TYPE_PCMCIA then INTERFACE_TYPE.PCMCIABus
              else if (IoGetDeviceProperty DeviceObject
                  DEVICE_REGISTRY_PROPERTY.DevicePropertyBusTypeGuid sizeofGUID).Guid
                  = G.GUID_BUS_TYPE_PCI then INTERFACE_TYPE.PCIBus
              else if (IoGetDeviceProperty DeviceObject
                  DEVICE_REGISTRY_PROPERTY.DevicePropertyBusTypeGuid sizeofGUID).Guid
                  = G.GUID_BUS_TYPE_ISAPNP then INTERFACE_TYPE.PNPISABus
              else INTERFACE_TYPE.InterfaceTypeUndefined) := by
  refine ⟨?_, ?_⟩
  · intro hfail
    simp [GetBusInterface, hfail]
  · intro hok hg
    have e1 := RtlCompareMemory_eq_iff 16 _ _ hg h1
    have e2 := RtlCompareMemory_eq_iff 16 _ _ hg h2
    have e3 := RtlCompareMemory_eq_iff 16 _ _ hg h3
    simp only [sizeofGUID] at hok e1 e2 e3 ⊢
    simp only [GetBusInterface, sizeofGUID, hok, Bool.not_true, Bool.false_eq_true, if_false,
      e1, e2, e3]

/-- The witness of C6: a query that succeeds with the GUID of the PCI bus. -/
theorem GetBusInterface_classifies_witness :
    GetBusInterface ntGuids (fun _ _ _ => ⟨STATUS_SUCCESS, guidPCI, 16⟩) 0
      = INTERFACE_TYPE.PCIBus :=
  ((GetBusInterface_classifies ntGuids (fun _ _ _ => ⟨STATUS_SUCCESS, guidPCI, 16⟩) 0
      (by decide) (by decide) (by decide)).2 (by decide) (by decide)).trans (by decide)

/-- A query that fails, with the GUID of the PCI bus in the buffer. -/
theorem GetBusInterface_query_fails :
    GetBusInterface ntGuids (fun _ _ _ => ⟨STATUS_NOT_SUPPORTED, guidPCI, 16⟩) 0
      = INTERFACE_TYPE.InterfaceTypeUndefined := by
  decide

/-- The three constants and a GUID that is none of them. -/
theorem GetBusInterface_known_guids :
    GetBusInterface ntGuids (fun _ _ _ => ⟨STATUS_SUCCESS, guidPCMCIA, 16⟩) 0
        = INTERFACE_TYPE.PCMCIABus
      ∧ GetBusInterface ntGuids (fun _ _ _ => ⟨STATUS_SUCCESS, guidPCI, 16⟩) 0
        = INTERFACE_TYPE.PCIBus
      ∧ GetBusInterface ntGuids (fun _ _ _ => ⟨STATUS_SUCCESS, guidISAPNP, 16⟩) 0
        = INTERFACE_TYPE.PNPISABus
      ∧ GetBusInterface ntGuids (fun _ _ _ => ⟨STATUS_SUCCESS, List.replicate 16 0, 16⟩) 0
        = INTERFACE_TYPE.InterfaceTypeUndefined := by
  decide

/-! ## ForwardIrpAndWait and QueryBusInterface -/

theorem IoCallDriver_fst (LowerDevice : IRP → DriverResponse) (w : Kernel) :
    (IoCallDriver LowerDevice w).1 = (LowerDevice w.Irp).Status := by
  unfold IoCallDriver
  dsimp only
  split <;> rfl

theorem IoCompleteRequest_calls (c : Completion) (w : Kernel) :
    ∀ x ∈ (IoCompleteRequest c w).calls, x ∈ w.calls ∨ x = KernelCall.KeSetEvent := by
  intro x hx
  unfold IoCompleteRequest ForwardIrpAndWaitCompletion at hx
  simp only at hx
  split at hx <;> split at hx <;> (try split at hx) <;> (try split at hx) <;>
    simp only [List.mem_append, List.mem_singleton] at hx <;> tauto

theorem IoCallDriver_calls (LowerDevice : IRP → DriverResponse) (w : Kernel) :
    ∀ x ∈ (IoCallDriver LowerDevice w).2.calls,
      x ∈ w.calls ∨ x = KernelCall.IoCallDriver ∨ x = KernelCall.KeSetEvent := by
  intro x hx
  unfold IoCallDriver at hx
  dsimp only at hx
  split at hx
  · rcases IoCompleteRequest_calls _ _ x hx with h | h
    · simp only [List.mem_append, List.mem_singleton] at h
      tauto
    · exact Or.inr (Or.inr h)
  · simp only [List.mem_append, List.mem_singleton] at hx
    tauto

theorem KeWaitForSingleObject_some (LowerDevice : IRP → DriverResponse) (Irp0 : IRP)
    (w : Kernel) (Status : NTSTATUS) (w3 : Kernel)
    (h : KeWaitForSingleObject LowerDevice Irp0 w = some (Status, w3)) :
    Status = STATUS_SUCCESS ∧ w3.Event = true
      ∧ KernelCall.KeWaitForSingleObject ∈ w3.calls := by
  unfold KeWaitForSingleObject at h
  simp only at h
  split at h
  · rename_i hev
    simp only [Option.some.injEq, Prod.mk.injEq] at h
    obtain ⟨h1, h2⟩ := h
    subst h2
    exact ⟨h1.symm, hev, by simp⟩
  · exact absurd h (by simp)

theorem IoCallDriver_inCall (LowerDevice : IRP → DriverResponse) (w : Kernel) (c : Completion)
    (h : (LowerDevice w.Irp).completion = some (CompletionTime.InCall, c)) :
    IoCallDriver LowerDevice w
      = ((LowerDevice w.Irp).Status,
         IoCompleteRequest c { w with calls := w.calls ++ [KernelCall.IoCallDriver] }) := by
  unfold IoCallDriver
  dsimp only
  rw [h]

theorem IoCallDriver_later (LowerDevice : IRP → DriverResponse) (w : Kernel) (c : Completion)
    (h : (LowerDevice w.Irp).completion = some (CompletionTime.Later, c)) :
    IoCallDriver LowerDevice w
      = ((LowerDevice w.Irp).Status,
         { w with calls := w.calls ++ [KernelCall.IoCallDriver] }) := by
  unfold IoCallDriver
  dsimp only
  rw [h]

theorem KeWaitForSingleObject_inCall (LowerDevice : IRP → DriverResponse) (Irp0 : IRP)
    (w : Kernel) (c : Completion)
    (h : (LowerDevice Irp0).completion = some (CompletionTime.InCall, c))
    (hev : w.Event = true) :
    KeWaitForSingleObject LowerDevice Irp0 w
      = some (STATUS_SUCCESS,
          { w with calls := w.calls ++ [KernelCall.KeWaitForSingleObject] }) := by
  unfold KeWaitForSingleObject
  dsimp only
  rw [h]
  dsimp only
  rw [if_pos hev]

theorem KeWaitForSingleObject_later (LowerDevice : IRP → DriverResponse) (Irp0 : IRP)
    (w : Kernel) (c : Completion)
    (h : (LowerDevice Irp0).completion = some (CompletionTime.Later, c))
    (hev : (IoCompleteRequest c w).Event = true) :
    KeWaitForSingleObject LowerDevice Irp0 w
      = some (STATUS_SUCCESS,
          { IoCompleteRequest c w with
            calls := (IoCompleteRequest c w).calls ++ [KernelCall.KeWaitForSingleObject] }) := by
  unfold KeWaitForSingleObject
  dsimp only
  rw [h]
  dsimp only
  rw [if_pos hev]

/-- The completion of a request whose completion routine is
`ForwardIrpAndWaitCompletion`, with `PendingReturned` set: the routine sets
the event. -/
theorem IoCompleteRequest_routine (c : Completion) (w : Kernel)
    (hr : w.Irp.CompletionRoutine = some CompletionRoutine.ForwardIrpAndWaitCompletion)
    (hp : c.PendingReturned = true) :
    IoCompleteRequest c w
      = { w with
          Irp := { w.Irp with IoStatus := c.Status.getD w.Irp.IoStatus,
                              PendingReturned := true },
          Event := true, calls := w.calls ++ [KernelCall.KeSetEvent] } := by
  unfold IoCompleteRequest
  dsimp only
  rw [hr]
  dsimp only
  unfold ForwardIrpAndWaitCompletion
  dsimp only
  rw [hp]
  simp

/-- The completion of a request with a user status block and no completion
routine: the status reaches the status block and the user event is set. -/
theorem IoCompleteRequest_user (c : Completion) (w : Kernel)
    (hr : w.Irp.CompletionRoutine = none) (hu : w.Irp.UserIosb = true) :
    IoCompleteRequest c w
      = { w with
          Irp := { w.Irp with IoStatus := c.Status.getD w.Irp.IoStatus,
                              PendingReturned := c.PendingReturned },
          IoStatus := c.Status.getD w.Irp.IoStatus,
          Event := true, calls := w.calls ++ [KernelCall.KeSetEvent] } := by
  unfold IoCompleteRequest
  dsimp only
  rw [hr]
  dsimp only
  rw [if_neg (by decide), if_pos hu]

theorem ForwardIrpAndWait_unfold (LowerDevice : IRP → DriverResponse) (Irp : IRP)
    (IoStatus0 : NTSTATUS) :
    ForwardIrpAndWait LowerDevice Irp IoStatus0
      = if (IoCallDriver LowerDevice
            ⟨forwardedIrp Irp, false, IoStatus0,
              [KernelCall.KeInitializeEvent, KernelCall.IoCopyCurrentIrpStackLocationToNext,
               KernelCall.IoSetCompletionRoutine]⟩).1 = STATUS_PENDING then
          match KeWaitForSingleObject LowerDevice (forwardedIrp Irp)
            (IoCallDriver LowerDevice
              ⟨forwardedIrp Irp, false, IoStatus0,
                [KernelCall.KeInitializeEvent, KernelCall.IoCopyCurrentIrpStackLocationToNext,
                 KernelCall.IoSetCompletionRoutine]⟩).2 with
          | none => none
          | some (Status, w3) =>
            if NT_SUCCESS Status then some (w3.Irp.IoStatus, w3) else some (Status, w3)
        else
          some ((IoCallDriver LowerDevice
              ⟨forwardedIrp Irp, false, IoStatus0,
                [KernelCall.KeInitializeEvent, KernelCall.IoCopyCurrentIrpStackLocationToNext,
                 KernelCall.IoSetCompletionRoutine]⟩).1,
            (IoCallDriver LowerDevice
              ⟨forwardedIrp Irp, false, IoStatus0,
                [KernelCall.KeInitializeEvent, KernelCall.IoCopyCurrentIrpStackLocationToNext,
                 KernelCall.IoSetCompletionRoutine]⟩).2) :=
  rfl

theorem QueryBusInterface_unfold (allocated : Option IRP) (Irp : IRP)
    (DeviceObject : IRP → DriverResponse)
    (Guid Size Version Interface InterfaceSpecificData : Nat) (IoStatus0 : NTSTATUS)
    (hbuilt : IoBuildSynchronousFsdRequest allocated = some Irp) :
    QueryBusInterface allocated DeviceObject Guid Size Version Interface InterfaceSpecificData
        IoStatus0
      = if (IoCallDriver DeviceObject
            ⟨QueryInterfaceIrp Irp Guid Size Version Interface InterfaceSpecificData, false,
              IoStatus0,
              [KernelCall.KeInitializeEvent, KernelCall.IoBuildSynchronousFsdRequest]⟩).1
            = STATUS_PENDING then
          match KeWaitForSingleObject DeviceObject
            (QueryInterfaceIrp Irp Guid Size Version Interface InterfaceSpecificData)
            (IoCallDriver DeviceObject
              ⟨QueryInterfaceIrp Irp Guid Size Version Interface InterfaceSpecificData, false,
                IoStatus0,
                [KernelCall.KeInitializeEvent, KernelCall.IoBuildSynchronousFsdRequest]⟩).2 with
          | none => none
          | some (_, w3) => some (w3.IoStatus, some w3)
        else
          some ((IoCallDriver DeviceObject
              ⟨QueryInterfaceIrp Irp Guid Size Version Interface InterfaceSpecificData, false,
                IoStatus0,
                [KernelCall.KeInitializeEvent, KernelCall.IoBuildSynchronousFsdRequest]⟩).1,
            some (IoCallDriver DeviceObject
              ⟨QueryInterfaceIrp Irp Guid Size Version Interface InterfaceSpecificData, false,
                IoStatus0,
                [KernelCall.KeInitializeEvent, KernelCall.IoBuildSynchronousFsdRequest]⟩).2) := by
  unfold QueryBusInterface
  rw [hbuilt]

/-- C7: if `IoCallDriver` returns a status other than `STATUS_PENDING`,
success or error, `ForwardIrpAndWait` returns, with exactly that status
(whatever the status field of the request holds), and it has not waited on
the event. -/
theorem ForwardIrpAndWait_returns_handoff_status (LowerDevice : IRP → DriverResponse)
    (Irp : IRP) (IoStatus0 : NTSTATUS)
    (h : (LowerDevice (forwardedIrp Irp)).Status ≠ STATUS_PENDING) :
    ∃ w, ForwardIrpAndWait LowerDevice Irp IoStatus0
          = some ((LowerDevice (forwardedIrp Irp)).Status, w)
      ∧ KernelCall.KeWaitForSingleObject ∉ w.calls := by
  unfold ForwardIrpAndWait
  dsimp only
  have hst := IoCallDriver_fst LowerDevice
    ⟨forwardedIrp Irp, false, IoStatus0,
      [KernelCall.KeInitializeEvent] ++ [KernelCall.IoCopyCurrentIrpStackLocationToNext]
        ++ [KernelCall.IoSetCompletionRoutine]⟩
  dsimp only at hst
  unfold forwardedIrp at hst h
  rw [if_neg (by rw [hst]; exact h), hst]
  refine ⟨_, rfl, ?_⟩
  intro hmem
  rcases IoCallDriver_calls _ _ _ hmem with h1 | h1 | h1
  · simp at h1
  · exact absurd h1 (by decide)
  · exact absurd h1 (by decide)

/-- The witness of C7: the lower driver fails the request in the call with
`STATUS_NOT_SUPPORTED` and leaves `5` in the status field; the status
returned is `STATUS_NOT_SUPPORTED`. -/
theorem ForwardIrpAndWait_returns_handoff_status_witness :
    (ForwardIrpAndWait
        (fun _ => ⟨STATUS_NOT_SUPPORTED, some (CompletionTime.InCall, ⟨some 5, false⟩)⟩)
        blankIrp 0).map Prod.fst = some STATUS_NOT_SUPPORTED :=
  match ForwardIrpAndWait_returns_handoff_status
      (fun _ => ⟨STATUS_NOT_SUPPORTED, some (CompletionTime.InCall, ⟨some 5, false⟩)⟩)
      blankIrp 0 (by decide) with
  | ⟨_, hw, _⟩ => by rw [hw]; rfl

/-- C8: when `IoCallDriver` returns `STATUS_PENDING`: if the request is
completed (in the call or later) with `PendingReturned` set and with `C` in
its status field, `ForwardIrpAndWait` returns `C`, after the completion
routine has set the event and the wait has ended; and whenever it returns,
the event is set, the wait has ended and the status is the status field of
the request: it does not return before. -/
theorem ForwardIrpAndWait_pending_returns_final_status (LowerDevice : IRP → DriverResponse)
    (Irp : IRP) (IoStatus0 : NTSTATUS)
    (hpend : (LowerDevice (forwardedIrp Irp)).Status = STATUS_PENDING) :
    (∀ t c C, (LowerDevice (forwardedIrp Irp)).completion = some (t, c) →
        c.PendingReturned = true → c.Status.getD Irp.IoStatus = C →
        ForwardIrpAndWait LowerDevice Irp IoStatus0
          = some (C,
              ⟨{ forwardedIrp Irp with IoStatus := C, PendingReturned := true }, true, IoStatus0,
                [KernelCall.KeInitializeEvent, KernelCall.IoCopyCurrentIrpStackLocationToNext,
                 KernelCall.IoSetCompletionRoutine, KernelCall.IoCallDriver,
                 KernelCall.KeSetEvent, KernelCall.KeWaitForSingleObject]⟩))
      ∧ (∀ Status w, ForwardIrpAndWait LowerDevice Irp IoStatus0 = some (Status, w) →
          w.Event = true ∧ KernelCall.KeWaitForSingleObject ∈ w.calls
            ∧ Status = w.Irp.IoStatus) := by
  refine ⟨?_, ?_⟩
  · intro t c C hcomp hflag hC
    have hst := IoCallDriver_fst LowerDevice
      ⟨forwardedIrp Irp, false, IoStatus0,
        [KernelCall.KeInitializeEvent, KernelCall.IoCopyCurrentIrpStackLocationToNext,
         KernelCall.IoSetCompletionRoutine]⟩
    have hI : (forwardedIrp Irp).IoStatus = Irp.IoStatus := rfl
    rw [ForwardIrpAndWait_unfold, if_pos (hst.trans hpend)]
    cases t with
    | InCall =>
      rw [IoCallDriver_inCall LowerDevice _ c hcomp,
        IoCompleteRequest_routine c _ rfl hflag,
        KeWaitForSingleObject_inCall LowerDevice _ _ c hcomp rfl]
      simp [NT_SUCCESS, STATUS_SUCCESS, hI, hC]
    | Later =>
      rw [IoCallDriver_later LowerDevice _ c hcomp]
      dsimp only
      rw [KeWaitForSingleObject_later LowerDevice _ _ c hcomp
          (by rw [IoCompleteRequest_routine c _ rfl hflag]),
        IoCompleteRequest_routine c _ rfl hflag]
      simp [NT_SUCCESS, STATUS_SUCCESS, hI, hC]
  · intro Status w hret
    unfold ForwardIrpAndWait at hret
    dsimp only at hret
    have hst := IoCallDriver_fst LowerDevice
      ⟨forwardedIrp Irp, false, IoStatus0,
        [KernelCall.KeInitializeEvent] ++ [KernelCall.IoCopyCurrentIrpStackLocationToNext]
          ++ [KernelCall.IoSetCompletionRoutine]⟩
    dsimp only at hst
    unfold forwardedIrp at hst hpend
    rw [if_pos (by rw [hst]; exact hpend)] at hret
    split at hret
    · exact absurd hret (by simp)
    · rename_i St w3 hwait
      obtain ⟨h1, h2, h3⟩ := KeWaitForSingleObject_some _ _ _ _ _ hwait
      subst h1
      simp only [NT_SUCCESS, STATUS_SUCCESS, le_refl, decide_True, if_true, Option.some.injEq,
        Prod.mk.injEq] at hret
      obtain ⟨e1, e2⟩ := hret
      subst e2
      exact ⟨h2, h3, e1.symm⟩

/-- The witness of C8: the lower driver returns `STATUS_PENDING` and
completes the request later with `5` in its status field; the status
returned is `5`. -/
theorem ForwardIrpAndWait_pending_returns_final_status_witness :
    ForwardIrpAndWait
        (fun _ => ⟨STATUS_PENDING, some (CompletionTime.Later, ⟨some 5, true⟩)⟩) blankIrp 0
      = some (5,
          ⟨{ forwardedIrp blankIrp with IoStatus := 5, PendingReturned := true }, true, 0,
            [KernelCall.KeInitializeEvent, KernelCall.IoCopyCurrentIrpStackLocationToNext,
             KernelCall.IoSetCompletionRoutine, KernelCall.IoCallDriver,
             KernelCall.KeSetEvent, KernelCall.KeWaitForSingleObject]⟩) :=
  (ForwardIrpAndWait_pending_returns_final_status
      (fun _ => ⟨STATUS_PENDING, some (CompletionTime.Later, ⟨some 5, true⟩)⟩) blankIrp 0
      (by decide)).1 CompletionTime.Later ⟨some 5, true⟩ 5 (by decide) (by decide) (by decide)

/-- C9, as stated, fails: a handler that leaves the status field of the
request as it is and returns `STATUS_SUCCESS` from the call makes
`QueryBusInterface` return `STATUS_SUCCESS`, while the status field of the
request is still `STATUS_NOT_SUPPORTED`. -/
theorem QueryBusInterface_counterexample :
    (QueryBusInterface (some blankIrp)
        (fun _ => ⟨STATUS_SUCCESS, some (CompletionTime.InCall, ⟨none, false⟩)⟩)
        1 2 3 4 5 77).map Prod.fst = some STATUS_SUCCESS
      ∧ (QueryBusInterface (some blankIrp)
          (fun _ => ⟨STATUS_SUCCESS, some (CompletionTime.InCall, ⟨none, false⟩)⟩)
          1 2 3 4 5 77).map (fun r => r.2.map (fun w => w.Irp.IoStatus))
        = some (some STATUS_NOT_SUPPORTED)
      ∧ STATUS_SUCCESS ≠ STATUS_NOT_SUPPORTED := by
  decide

/-- C9, amended: if the request is built and the handler of the device never
writes the status field of the request, then `QueryBusInterface` returns
`STATUS_NOT_SUPPORTED` when the handoff reports `STATUS_PENDING` and the
request is completed, and, when the handoff returns another status, it
returns that status. -/
theorem QueryBusInterface_default_status (allocated : Option IRP) (Irp : IRP)
    (DeviceObject : IRP → DriverResponse)
    (Guid Size Version Interface InterfaceSpecificData : Nat) (IoStatus0 : NTSTATUS)
    (hbuilt : IoBuildSynchronousFsdRequest allocated = some Irp)
    (hnever : ∀ t c,
      (DeviceObject (QueryInterfaceIrp Irp Guid Size Version Interface
        InterfaceSpecificData)).completion = some (t, c) → c.Status = none) :
    ((DeviceObject (QueryInterfaceIrp Irp Guid Size Version Interface
            InterfaceSpecificData)).Status = STATUS_PENDING →
        (DeviceObject (QueryInterfaceIrp Irp Guid Size Version Interface
            InterfaceSpecificData)).completion ≠ none →
        (QueryBusInterface allocated DeviceObject Guid Size Version Interface
            InterfaceSpecificData IoStatus0).map Prod.fst = some STATUS_NOT_SUPPORTED)
      ∧ ((DeviceObject (QueryInterfaceIrp Irp Guid Size Version Interface
            InterfaceSpecificData)).Status ≠ STATUS_PENDING →
          (QueryBusInterface allocated DeviceObject Guid Size Version Interface
              InterfaceSpecificData IoStatus0).map Prod.fst
            = some (DeviceObject (QueryInterfaceIrp Irp Guid Size Version Interface
                InterfaceSpecificData)).Status) := by
  have hIrp : Irp.UserIosb = true ∧ Irp.CompletionRoutine = none := by
    unfold IoBuildSynchronousFsdRequest at hbuilt
    cases allocated with
    | none => simp at hbuilt
    | some a =>
      simp only [Option.map_some', Option.some.injEq] at hbuilt
      subst hbuilt
      exact ⟨rfl, rfl⟩
  refine ⟨?_, ?_⟩
  · intro hpend hcomp
    cases hc : (DeviceObject (QueryInterfaceIrp Irp Guid Size Version Interface
        InterfaceSpecificData)).completion with
    | none => exact absurd hc hcomp
    | some tc =>
      obtain ⟨t, c⟩ := tc
      have hs := hnever t c hc
      have hst := IoCallDriver_fst DeviceObject
        ⟨QueryInterfaceIrp Irp Guid Size Version Interface InterfaceSpecificData, false,
          IoStatus0, [KernelCall.KeInitializeEvent, KernelCall.IoBuildSynchronousFsdRequest]⟩
      rw [QueryBusInterface_unfold allocated Irp DeviceObject Guid Size Version Interface
        InterfaceSpecificData IoStatus0 hbuilt, if_pos (hst.trans hpend)]
      cases t with
      | InCall =>
        rw [IoCallDriver_inCall DeviceObject _ c hc,
          IoCompleteRequest_user c _ hIrp.2 hIrp.1,
          KeWaitForSingleObject_inCall DeviceObject _ _ c hc rfl]
        simp [hs, QueryInterfaceIrp]
      | Later =>
        rw [IoCallDriver_later DeviceObject _ c hc]
        dsimp only
        rw [KeWaitForSingleObject_later DeviceObject _ _ c hc
            (by rw [IoCompleteRequest_user c _ hIrp.2 hIrp.1]),
          IoCompleteRequest_user c _ hIrp.2 hIrp.1]
        simp [hs, QueryInterfaceIrp]
  · intro hsync
    unfold QueryBusInterface
    rw [hbuilt]
    dsimp only
    have hst := IoCallDriver_fst DeviceObject
      ⟨QueryInterfaceIrp Irp Guid Size Version Interface InterfaceSpecificData, false,
        IoStatus0, [KernelCall.KeInitializeEvent, KernelCall.IoBuildSynchronousFsdRequest]⟩
    dsimp only at hst
    rw [if_neg (by rw [hst]; exact hsync), hst]
    rfl

/-- The witness of C9, amended: a handler that reports `STATUS_PENDING` and
later completes the request without writing its status field. -/
theorem QueryBusInterface_default_status_witness :
    (QueryBusInterface (some blankIrp)
        (fun _ => ⟨STATUS_PENDING, some (CompletionTime.Later, ⟨none, true⟩)⟩)
        1 2 3 4 5 77).map Prod.fst = some STATUS_NOT_SUPPORTED :=
  (QueryBusInterface_default_status (some blankIrp)
      { blankIrp with UserIosb := true, CompletionRoutine := none }
      (fun _ => ⟨STATUS_PENDING, some (CompletionTime.Later, ⟨none, true⟩)⟩)
      1 2 3 4 5 77 (by decide)
      (fun t c h => by
        simp only [Option.some.injEq, Prod.mk.injEq] at h
        rw [← h.2])).1 (by decide) (by decide)

/-- A lower driver that reports `STATUS_PENDING` and never completes the
request: `ForwardIrpAndWait` never returns. -/
theorem ForwardIrpAndWait_never_completed :
    ForwardIrpAndWait (fun _ => ⟨STATUS_PENDING, none⟩) blankIrp 0 = none := by
  decide

/-- A lower driver that reports `STATUS_PENDING` and completes the request
without `PendingReturned`: the completion routine does not set the event, and
`ForwardIrpAndWait` never returns. -/
theorem ForwardIrpAndWait_not_marked_pending :
    ForwardIrpAndWait
        (fun _ => ⟨STATUS_PENDING, some (CompletionTime.Later, ⟨some 5, false⟩)⟩) blankIrp 0
      = none := by
  decide

/-- No request can be built: `QueryBusInterface` returns
`STATUS_INSUFFICIENT_RESOURCES` and nothing is handed to the device. -/
theorem QueryBusInterface_not_built (DeviceObject : IRP → DriverResponse)
    (Guid Size Version Interface InterfaceSpecificData : Nat) (IoStatus0 : NTSTATUS) :
    QueryBusInterface none DeviceObject Guid Size Version Interface InterfaceSpecificData
        IoStatus0
      = some (STATUS_INSUFFICIENT_RESOURCES, none) :=
  rfl

end Storport
